import Mathlib

/-!
# Verification of the table grid-resolution and rendering core of `xml-to-md.py`

This file gives a shallow embedding, in Lean 4, of the table-processing core of
the converter:

* `build_logical_table_grid` (source lines 991–1087): row-major grid resolution
  with an occupancy set for rowspan/colspan reservations;
* `calculate_rowspan_from_border` (lines 1090–1145): border-based rowspan
  inference (defined in the source but never invoked);
* `_check_table_has_non_solid_border` (lines 1148–1172): the style-emission
  policy;
* `render_table` (lines 1174–1298): HTML rendering of header and body.

Cell text is modelled as the already-extracted string (the source calls
`process_table_column_content` for body cells, and `normalize_text ∘
extract_text` in the inference scan and header rendering; both routes are
modelled by the single `text` field, which is opaque to this core).
`rowspan` / `colspan` attributes are modelled by their parsed integer values
(`int(attr)` in the source, with `none` standing for an absent attribute; an
attribute that raises `ValueError` behaves as an absent one in the grid code).
Border attributes are modelled exactly as the source reads them: `Option
String`, where `none` is an absent attribute.
-/

set_option autoImplicit false

namespace XmlToMd

/-- One `TableColumn` (or `TableHeaderColumn`) element, as far as the table core
reads it: extracted text, parsed `rowspan`/`colspan` attributes, and the four
border-style attributes. -/
structure TableColumn where
  text : String
  rowspanAttr : Option Int
  colspanAttr : Option Int
  borderTop : Option String
  borderBottom : Option String
  borderLeft : Option String
  borderRight : Option String
  deriving DecidableEq, Repr

/-- A `TableColumn` with every attribute absent. -/
def plainCell (t : String) : TableColumn :=
  ⟨t, none, none, none, none, none, none⟩

/-- One entry of a logical grid row, as built by `build_logical_table_grid`:
either the dict `{'type': 'occupied', 'rs': 1, 'colspan': 1}` (a position
claimed by a span from an earlier cell) or a dict `{'type': 'data', ...}`
holding the cell's text, effective spans, and the four border values
(the source also stores the raw `xml` element, which the renderer never
reads and which is therefore not modelled). -/
inductive LogicalCell where
  | occupied : LogicalCell
  | data (text : String) (rs : Int) (colspan : Int)
      (bt bb bl br : Option String) : LogicalCell
  deriving DecidableEq, Repr

/-- The `'data'` dict built at source lines 1058–1065: effective spans are the
parsed attributes with a default of 1. -/
def mkData (col : TableColumn) : LogicalCell :=
  .data col.text (col.rowspanAttr.getD 1) (col.colspanAttr.getD 1)
    col.borderTop col.borderBottom col.borderLeft col.borderRight

/-- The set of positions added to `occupied_cells` at source lines 1070–1077:
`(r_idx + r_off, c_idx + c_off)` for `r_off in range(rowspan)`,
`c_off in range(colspan)`, skipping `(0, 0)` (the cell itself).  A
non-positive span gives an empty Python `range`, hence `Int.toNat` below. -/
def reservations (r : Nat) (c : Int) (rowspan colspan : Int) : Finset (Nat × Int) :=
  ((Finset.range rowspan.toNat ×ˢ Finset.range colspan.toNat).filter
      (fun q => ¬(q.1 = 0 ∧ q.2 = 0))).image
    (fun q => (r + q.1, c + (q.2 : Int)))

/-- The `while` loop of `build_logical_table_grid` (source lines 1015–1083) for
one row `r`: `cols` are the unconsumed `TableColumn`s of the row, `c` is the
visual column index `c_idx`, and `occ` is the occupancy set.  Each iteration
either records an `occupied` ghost entry and advances one column, or consumes
the next declared cell, records it as `data`, reserves its footprint and
advances by its colspan.  Termination: either the list of unconsumed columns
shrinks, or it is unchanged and the set of occupied positions of row `r` at
columns `≥ c` loses the element `(r, c)`. -/
def rowLoop (r : Nat) (cols : List TableColumn) (c : Int) (occ : Finset (Nat × Int)) :
    List LogicalCell × Finset (Nat × Int) :=
  if h : (r, c) ∈ occ then
    let p := rowLoop r cols (c + 1) occ
    (.occupied :: p.1, p.2)
  else
    match cols with
    | [] => ([], occ)
    | col :: tl =>
        let cs := col.colspanAttr.getD 1
        let occ2 := occ ∪ reservations r c (col.rowspanAttr.getD 1) cs
        let p := rowLoop r tl (c + cs) occ2
        (mkData col :: p.1, p.2)
termination_by (cols.length, (occ.filter (fun q => q.1 = r ∧ c ≤ q.2)).card)
decreasing_by
  · apply Prod.Lex.right
    apply Finset.card_lt_card
    constructor
    · intro q hq
      simp only [Finset.mem_filter] at hq ⊢
      exact ⟨hq.1, hq.2.1, by omega⟩
    · intro hsub
      have h1 : (r, c) ∈ occ.filter (fun q => q.1 = r ∧ c ≤ q.2) := by
        refine Finset.mem_filter.mpr ⟨h, ?_⟩
        simp
      have h2 := hsub h1
      simp only [Finset.mem_filter] at h2
      omega
  · exact Prod.Lex.left _ _ (by simp)

/-- The outer row loop of `build_logical_table_grid` (source lines 1006–1085):
rows are processed top to bottom, threading the occupancy set. -/
def gridGo (r : Nat) (rows : List (List TableColumn)) (occ : Finset (Nat × Int)) :
    List (List LogicalCell) :=
  match rows with
  | [] => []
  | row :: tl =>
      let p := rowLoop r row 0 occ
      p.1 :: gridGo (r + 1) tl p.2

/-- `build_logical_table_grid(body_rows, ...)` (source lines 991–1087).  The
`law_revision_id` / `image_dir` parameters of the source only feed the
text-extraction collaborator and are not part of the grid logic. -/
def build_logical_table_grid (body_rows : List (List TableColumn)) :
    List (List LogicalCell) :=
  gridGo 0 body_rows ∅

/-- `build_logical_table_grid` as run under a given value of the process-wide
`TABLE_PROCESSING_MODE` global (source lines 15–18, set from the CLI at lines
2715–2716).  The source never reads the global inside the grid code — the
inline comment at lines 1037–1038 notes that only explicit attributes are
honoured — so the produced grid is the same for every mode string. -/
def build_grid_with_mode (TABLE_PROCESSING_MODE : String)
    (body_rows : List (List TableColumn)) : List (List LogicalCell) :=
  build_logical_table_grid body_rows

/-- The scan over following rows inside `calculate_rowspan_from_border`
(source lines 1114–1135): starting from the row after the candidate cell,
count how many consecutive rows have, at the same column index, a cell with
`BorderTop="none"` and empty text; the count stops at the first row that has no
cell at that index or whose cell breaks the pattern. -/
def countContinuations (col_idx : Nat) : List (List TableColumn) → Nat
  | [] => 0
  | row :: tl =>
      match row[col_idx]? with
      | some nextCell =>
          if nextCell.borderTop.getD "solid" = "none" ∧ nextCell.text = "" then
            1 + countContinuations col_idx tl
          else 0
      | none => 0

/-- `calculate_rowspan_from_border(table, row_idx, col_idx, body_rows, cell)`
(source lines 1090–1145; the `table` parameter is unused in the source).  An
explicit `rowspan > 1` wins; otherwise a cell with `BorderBottom="none"` and
non-empty text extends over the following continuation rows.  This function is
defined in the source but never called. -/
def calculate_rowspan_from_border (row_idx col_idx : Nat)
    (body_rows : List (List TableColumn)) (cell : TableColumn) : Int :=
  let rowspan := cell.rowspanAttr.getD 1
  if 1 < rowspan then rowspan
  else if cell.borderBottom.getD "solid" = "none" ∧ cell.text ≠ "" then
    let extended : Int := 1 + countContinuations col_idx (body_rows.drop (row_idx + 1))
    if 1 < extended then extended else rowspan
  else rowspan

/-- Whether one cell has any of its four border attributes differing from
`"solid"`, an absent attribute counting as `"solid"` (the
`col.get(attr, "solid") != "solid"` test of source lines 1159–1169). -/
def cellHasNonSolidBorder (col : TableColumn) : Bool :=
  (col.borderTop.getD "solid" != "solid") || (col.borderBottom.getD "solid" != "solid") ||
    (col.borderLeft.getD "solid" != "solid") || (col.borderRight.getD "solid" != "solid")

/-- `_check_table_has_non_solid_border(table, header, body_rows)` (source lines
1148–1172; the `table` parameter is unused in the source): scans the header
cells, then every body cell, and reports whether any border attribute differs
from `"solid"`. -/
def _check_table_has_non_solid_border (header : Option (List TableColumn))
    (body_rows : List (List TableColumn)) : Bool :=
  (match header with
   | some cols => cols.any cellHasNonSolidBorder
   | none => false) ||
    body_rows.any (fun row => row.any cellHasNonSolidBorder)

/-- A `Table` element as `render_table` reads it: the `WritingMode` attribute,
the optional `TableHeaderRow` (its list of `TableHeaderColumn`s) and the list
of `TableRow`s (each its list of `TableColumn`s). -/
structure Table where
  writingMode : Option String
  header : Option (List TableColumn)
  bodyRows : List (List TableColumn)
  deriving DecidableEq, Repr

/-- `"  " * indent`. -/
def indentStr (indent : Nat) : String :=
  String.join (List.replicate indent "  ")

/-- How Python's f-string prints the border value stored in a logical `data`
cell: the grid stores `col_xml.get("BorderTop")` etc. (source lines
1050–1055), so an absent attribute is stored as the value `None`, which
formats as the string `"None"`.  (The renderer's `cell.get(key, 'solid')`
at line 1279 never falls back to `'solid'`, because the key is always
present in the dict.) -/
def pyStrOfOpt : Option String → String
  | none => "None"
  | some s => s

/-- The `style_parts` list built for a body cell (source lines 1267–1283):
one `border-*-style` declaration per border value differing from `"solid"`,
in the order top, bottom, left, right. -/
def td_style_parts (bt bb bl br : Option String) : List String :=
  (if pyStrOfOpt bt ≠ "solid" then ["border-top-style: " ++ pyStrOfOpt bt] else []) ++
    (if pyStrOfOpt bb ≠ "solid" then ["border-bottom-style: " ++ pyStrOfOpt bb] else []) ++
    (if pyStrOfOpt bl ≠ "solid" then ["border-left-style: " ++ pyStrOfOpt bl] else []) ++
    (if pyStrOfOpt br ≠ "solid" then ["border-right-style: " ++ pyStrOfOpt br] else [])

/-- The `td_attrs` list built for a body `data` cell (source lines 1259–1286):
`rowspan`/`colspan` only when the span exceeds 1, then — only when the table's
style flag is set — a `style` attribute when any border declaration applies. -/
def td_attrs (has_non_solid_border : Bool) (rs cs : Int) (bt bb bl br : Option String) :
    List String :=
  (if 1 < rs then ["rowspan=\"" ++ toString rs ++ "\""] else []) ++
    (if 1 < cs then ["colspan=\"" ++ toString cs ++ "\""] else []) ++
    (if has_non_solid_border then
      (let sp := td_style_parts bt bb bl br
       if sp = [] then [] else ["style=\"" ++ String.intercalate "; " sp ++ "\""])
     else [])

/-- `attrs_str = " " + " ".join(attrs) if attrs else ""`. -/
def attrsString : List String → String
  | [] => ""
  | attrs => " " ++ String.intercalate " " attrs

/-- The body-cell emission step of `render_table` (source lines 1253–1291): an
`occupied` position is skipped entirely (`continue`), a `data` cell becomes one
`<td>` line. -/
def renderBodyCell (ind : String) (has_non_solid_border : Bool) :
    LogicalCell → Option String
  | .occupied => none
  | .data t rs cs bt bb bl br =>
      some (ind ++ "      <td" ++ attrsString (td_attrs has_non_solid_border rs cs bt bb bl br)
        ++ ">" ++ t ++ "</td>")

/-- The `style_parts` list built for a header cell (source lines 1218–1229):
here the source reads the XML attribute with default `"solid"`, so absent
attributes are never emitted. -/
def th_style_parts (col : TableColumn) : List String :=
  (if col.borderTop.getD "solid" ≠ "solid" then
      ["border-top-style: " ++ col.borderTop.getD "solid"] else []) ++
    (if col.borderBottom.getD "solid" ≠ "solid" then
      ["border-bottom-style: " ++ col.borderBottom.getD "solid"] else []) ++
    (if col.borderLeft.getD "solid" ≠ "solid" then
      ["border-left-style: " ++ col.borderLeft.getD "solid"] else []) ++
    (if col.borderRight.getD "solid" ≠ "solid" then
      ["border-right-style: " ++ col.borderRight.getD "solid"] else [])

/-- The `th_attrs` list for a header cell (source lines 1209–1232): the raw
`rowspan`/`colspan` attribute is emitted whenever it differs from `"1"`
(modelled on the parsed value), then the conditional `style` attribute. -/
def th_attrs (has_non_solid_border : Bool) (col : TableColumn) : List String :=
  (if col.rowspanAttr.getD 1 ≠ 1 then
      ["rowspan=\"" ++ toString (col.rowspanAttr.getD 1) ++ "\""] else []) ++
    (if col.colspanAttr.getD 1 ≠ 1 then
      ["colspan=\"" ++ toString (col.colspanAttr.getD 1) ++ "\""] else []) ++
    (if has_non_solid_border then
      (let sp := th_style_parts col
       if sp = [] then [] else ["style=\"" ++ String.intercalate "; " sp ++ "\""])
     else [])

/-- One `<th>` line (source line 1236). -/
def renderHeaderCell (ind : String) (has_non_solid_border : Bool) (col : TableColumn) : String :=
  ind ++ "      <th" ++ attrsString (th_attrs has_non_solid_border col) ++ ">" ++ col.text ++ "</th>"

/-- The `<thead>` block (source lines 1202–1239): emitted only when a
`TableHeaderRow` element exists. -/
def renderHeaderLines (ind : String) (has_non_solid_border : Bool) :
    Option (List TableColumn) → List String
  | none => []
  | some cols =>
      [ind ++ "  <thead>", ind ++ "    <tr>"] ++
        cols.map (renderHeaderCell ind has_non_solid_border) ++
        [ind ++ "    </tr>", ind ++ "  </thead>"]

/-- One `<tr>` block for a logical grid row (source lines 1250–1293). -/
def renderGridRowLines (ind : String) (has_non_solid_border : Bool)
    (row : List LogicalCell) : List String :=
  (ind ++ "    <tr>") ::
    row.filterMap (renderBodyCell ind has_non_solid_border) ++ [ind ++ "    </tr>"]

/-- The `<tbody>` block (source lines 1244–1295): emitted only when the table
has at least one `TableRow`; its rows come from `build_logical_table_grid`. -/
def renderBodyLines (ind : String) (has_non_solid_border : Bool)
    (bodyRows : List (List TableColumn)) : List String :=
  if bodyRows = [] then []
  else
    (ind ++ "  <tbody>") ::
      (build_logical_table_grid bodyRows).flatMap
        (renderGridRowLines ind has_non_solid_border) ++
      [ind ++ "  </tbody>"]

/-- The attribute string of the `<table>` element (source lines 1182–1187). -/
def tableAttrs (t : Table) : String :=
  " style=\"border-collapse: collapse;\"" ++
    (if t.writingMode.getD "horizontal-tb" = "vertical-rl" then
      " class=\"writing-mode-vertical\"" else "")

/-- The `html_lines` list accumulated by `render_table` (source lines
1174–1297). -/
def render_table_lines (t : Table) (indent : Nat) : List String :=
  let ind := indentStr indent
  let flag := _check_table_has_non_solid_border t.header t.bodyRows
  ((ind ++ "<table" ++ tableAttrs t ++ ">") ::
      renderHeaderLines ind flag t.header ++ renderBodyLines ind flag t.bodyRows) ++
    [ind ++ "</table>"]

/-- `render_table(table, indent, ...)` (source line 1298):
`"\n".join(html_lines) + "\n\n"`. -/
def render_table (t : Table) (indent : Nat) : String :=
  String.intercalate "\n" (render_table_lines t indent) ++ "\n\n"

/-! ## Claim-formalisation layer

Derived notions used to state the claims: the visual column of each grid
entry, origin footprints, the coverage predicate, and the spec's
`max_columns`.  These are formalisations of the claims' language, not source
functions. -/

/-- How many visual columns one grid entry advances `c_idx` by: an `occupied`
ghost advances 1, a `data` cell advances its colspan. -/
def cellWidth : LogicalCell → Int
  | .occupied => 1
  | .data _ _ cs _ _ _ _ => cs

/-- Pair each entry of a logical row with the visual column at which it was
placed, starting from column `c`. -/
def rowPositions (c : Int) : List LogicalCell → List (Int × LogicalCell)
  | [] => []
  | cell :: tl => (c, cell) :: rowPositions (c + cellWidth cell) tl

/-- An `Origin` cell of the resolved grid: its anchor position and its
declared row/column span. -/
structure OriginInfo where
  r : Nat
  c : Int
  rs : Int
  cs : Int
  deriving DecidableEq, Repr

/-- The footprint of an `Origin`: its anchor plus every position claimed by
its row span × column span. -/
def footprint (o : OriginInfo) : Finset (Nat × Int) :=
  (Finset.range o.rs.toNat ×ˢ Finset.range o.cs.toNat).image
    (fun q => (o.r + q.1, o.c + (q.2 : Int)))

/-- The origins of row `r` of a grid, with their anchor columns. -/
def originsOfRow (r : Nat) (row : List LogicalCell) : List OriginInfo :=
  (rowPositions 0 row).filterMap (fun p =>
    match p.2 with
    | .data _ rs cs _ _ _ _ => some ⟨r, p.1, rs, cs⟩
    | .occupied => none)

/-- The positions of the `occupied` (Covered) entries of row `r` of a grid. -/
def coveredOfRow (r : Nat) (row : List LogicalCell) : List (Nat × Int) :=
  (rowPositions 0 row).filterMap (fun p =>
    match p.2 with
    | .data _ _ _ _ _ _ _ => none
    | .occupied => some (r, p.1))

/-- All origins of a grid, row-major. -/
def gridOrigins (g : List (List LogicalCell)) : List OriginInfo :=
  (g.enum.map (fun q => originsOfRow q.1 q.2)).flatten

/-- All Covered positions of a grid, row-major. -/
def gridCovered (g : List (List LogicalCell)) : List (Nat × Int) :=
  (g.enum.map (fun q => coveredOfRow q.1 q.2)).flatten

/-- Modelled from the spec: `max_columns` is "the maximum, over all rows, of
the sum of each row's cell `col_span` values" (spec §3); the source has no
such computation. -/
def spec_max_columns (rows : List (List TableColumn)) : Int :=
  (rows.map (fun row => (row.map (fun cell => cell.colspanAttr.getD 1)).sum)).foldr max 0

/-- Total number of grid entries produced (the work of the row-major scan:
one loop iteration per entry). -/
def totalEntries (g : List (List LogicalCell)) : Nat :=
  (g.map List.length).sum

/-- The coverage invariant of claim C2 for the grid resolved from `rows`:
every position of the `rows.length × max_columns` rectangle is claimed by
exactly one origin footprint, no two origin footprints share any position,
and every Covered position is claimed by exactly one origin footprint. -/
def CoverageExact (rows : List (List TableColumn)) : Prop :=
  let g := build_logical_table_grid rows
  let os := gridOrigins g
  (∀ r < rows.length, ∀ j < (spec_max_columns rows).toNat,
      os.countP (fun o => decide ((r, (j : Int)) ∈ footprint o)) = 1) ∧
    List.Pairwise (fun o₁ o₂ => footprint o₁ ∩ footprint o₂ = ∅) os ∧
    (∀ p ∈ gridCovered g, os.countP (fun o => decide (p ∈ footprint o)) = 1)

/-- Whether a table contains an inference-eligible pattern in the sense of
claim C9 / spec §4.3: some cell with `BorderBottom = "none"`, non-empty text,
and at least one empty-text continuation row below it at its column index. -/
def inference_eligible (rows : List (List TableColumn)) : Bool :=
  rows.enum.any (fun q =>
    q.2.enum.any (fun p =>
      (p.2.borderBottom.getD "solid" == "none") && (p.2.text != "") &&
        (0 < countContinuations p.1 (rows.drop (q.1 + 1)) : Bool)))

/-! ## Unfolding lemmas for the row loop -/

theorem rowLoop_mem {r : Nat} {c : Int} {occ : Finset (Nat × Int)} (cols : List TableColumn)
    (h : (r, c) ∈ occ) :
    rowLoop r cols c occ =
      ((.occupied : LogicalCell) :: (rowLoop r cols (c + 1) occ).1,
        (rowLoop r cols (c + 1) occ).2) := by
  rw [rowLoop.eq_def]
  simp [h]

theorem rowLoop_nil {r : Nat} {c : Int} {occ : Finset (Nat × Int)} (h : (r, c) ∉ occ) :
    rowLoop r [] c occ = ([], occ) := by
  rw [rowLoop.eq_def]
  simp [h]

theorem rowLoop_cons {r : Nat} {c : Int} {occ : Finset (Nat × Int)}
    (col : TableColumn) (tl : List TableColumn) (h : (r, c) ∉ occ) :
    rowLoop r (col :: tl) c occ =
      (mkData col ::
          (rowLoop r tl (c + col.colspanAttr.getD 1)
            (occ ∪ reservations r c (col.rowspanAttr.getD 1) (col.colspanAttr.getD 1))).1,
        (rowLoop r tl (c + col.colspanAttr.getD 1)
          (occ ∪ reservations r c (col.rowspanAttr.getD 1) (col.colspanAttr.getD 1))).2) := by
  rw [rowLoop.eq_def]
  simp [h, mkData]

/-! ## String helper lemmas -/

theorem ne_of_length_ne {s t : String} (h : s.length ≠ t.length) : s ≠ t :=
  fun he => h (he ▸ rfl)

theorem append_ne_of_head_ne {p q : String} (x y : String) (a b : Char)
    (hp : p.data.head? = some a) (hq : q.data.head? = some b) (hab : a ≠ b) :
    p ++ x ≠ q ++ y := by
  intro he
  have hd : p.data ++ x.data = q.data ++ y.data := by
    have := congrArg String.data he
    simpa [String.data_append] using this
  cases hp' : p.data with
  | nil => simp [hp'] at hp
  | cons c cs =>
      cases hq' : q.data with
      | nil => simp [hq'] at hq
      | cons d ds =>
          rw [hp'] at hp hd
          rw [hq'] at hq hd
          simp only [List.head?_cons, Option.some.injEq] at hp hq
          simp only [List.cons_append, List.cons.injEq] at hd
          exact hab (hp ▸ hq ▸ hd.1)

theorem append_left_cancel_ne {s a b : String} (h : a ≠ b) : s ++ a ≠ s ++ b := by
  intro he
  apply h
  have hd := congrArg String.data he
  simp only [String.data_append] at hd
  exact String.ext (List.append_cancel_left hd)

/-- Whether a logical grid entry is a `data` (Origin) cell. -/
def isData : LogicalCell → Bool
  | .occupied => false
  | .data _ _ _ _ _ _ _ => true

/-! ## Concrete scenario inputs -/

/-- The hybrid-inference scenario cell `X`: `BorderBottom="none"`, non-empty
text, no explicit spans. -/
def cellX : TableColumn := ⟨"X", none, none, none, some "none", none, none⟩

/-- The hybrid-inference scenario cell `Y`: `BorderTop="none"`, empty text. -/
def cellY : TableColumn := ⟨"", none, none, some "none", none, none, none⟩

/-- The hybrid-inference scenario: `[[X], [Y]]`. -/
def hybridScenarioRows : List (List TableColumn) := [[cellX], [cellY]]

/-- Evaluation of the grid resolver on the hybrid-inference scenario. -/
theorem build_hybridScenario :
    build_logical_table_grid hybridScenarioRows =
      [[.data "X" 1 1 none (some "none") none none],
       [.data "" 1 1 (some "none") none none none]] := by
  simp only [build_logical_table_grid, hybridScenarioRows, gridGo]
  rw [rowLoop_cons _ _ (by decide), rowLoop_nil (by decide)]
  rw [rowLoop_cons _ _ (by decide), rowLoop_nil (by decide)]
  simp [mkData, cellX, cellY]

/-- A 2 × 2 table of attribute-free cells. -/
def simple2x2Rows : List (List TableColumn) :=
  [[plainCell "a", plainCell "b"], [plainCell "c", plainCell "d"]]

/-- C1: on the hybrid-inference scenario `[[X(border_bottom=none)],
[Y(border_top=none, text="")]]`, grid resolution under `hybrid` mode does NOT
apply Border-Based Span Inference: it produces two independent Origin (`data`)
cells with `rowspan = 1` — identical to `strict` mode — even though the
source's own (never-invoked) `calculate_rowspan_from_border` computes
`rowspan = 2` for `X`.  `build_logical_table_grid` never reads
`TABLE_PROCESSING_MODE` and never calls the inference function, contradicting
the source's mode documentation (lines 15–17) and CLI help (line 2701). -/
theorem C1_hybrid_mode_never_infers :
    build_grid_with_mode "hybrid" hybridScenarioRows =
        [[.data "X" 1 1 none (some "none") none none],
         [.data "" 1 1 (some "none") none none none]] ∧
      build_grid_with_mode "hybrid" hybridScenarioRows =
        build_grid_with_mode "strict" hybridScenarioRows ∧
      calculate_rowspan_from_border 0 0 hybridScenarioRows cellX = 2 := by
  refine ⟨build_hybridScenario, rfl, ?_⟩
  decide

/-- C9: whenever no inference-eligible pattern exists, grid resolution in
`hybrid` mode produces exactly the grid of `strict` mode.  (This holds because
`build_logical_table_grid` never reads the mode at all.) -/
theorem C9_strict_hybrid_coincide (rows : List (List TableColumn))
    (h : inference_eligible rows = false) :
    build_grid_with_mode "hybrid" rows = build_grid_with_mode "strict" rows := rfl

/-- Witness for C9 at the attribute-free 2 × 2 table. -/
theorem C9_strict_hybrid_coincide_witness :
    inference_eligible simple2x2Rows = false ∧
      build_grid_with_mode "hybrid" simple2x2Rows =
        build_grid_with_mode "strict" simple2x2Rows :=
  ⟨by decide, C9_strict_hybrid_coincide simple2x2Rows (by decide)⟩

/-- C6, counterexample: a table with no header row and no body rows does NOT
render to nothing — `render_table` unconditionally emits the `<table>`
element. -/
theorem C6_empty_table_not_silent :
    render_table ⟨none, none, []⟩ 0 ≠ "" := by decide

/-- C6, amended: for a table with no header and no body rows the renderer
emits an empty table shell — the opening `<table>` line and the closing
`</table>` line, with no `thead` and no `tbody`. -/
theorem C6_empty_table_emits_shell :
    render_table ⟨none, none, []⟩ 0 =
      "<table style=\"border-collapse: collapse;\">\n</table>\n\n" := by decide

/-- C4: the style-emission policy returns `true` iff some cell of the table —
header cells included — has one of its four border attributes differing from
`"solid"`, an absent attribute counting as `"solid"`. -/
theorem C4_style_policy_iff (header : Option (List TableColumn))
    (body_rows : List (List TableColumn)) :
    _check_table_has_non_solid_border header body_rows = true ↔
      ∃ col ∈ header.getD [] ++ body_rows.flatten,
        (col.borderTop.getD "solid" ≠ "solid" ∨ col.borderBottom.getD "solid" ≠ "solid" ∨
          col.borderLeft.getD "solid" ≠ "solid" ∨ col.borderRight.getD "solid" ≠ "solid") := by
  cases header with
  | none =>
      simp [_check_table_has_non_solid_border, cellHasNonSolidBorder, List.any_eq_true,
        List.mem_flatten]
      constructor
      · rintro ⟨row, hrow, col, hcol, hP⟩
        exact ⟨col, ⟨row, hrow, hcol⟩, by tauto⟩
      · rintro ⟨col, ⟨row, hrow, hcol⟩, hP⟩
        exact ⟨row, hrow, col, hcol, by tauto⟩
  | some hcols =>
      simp [_check_table_has_non_solid_border, cellHasNonSolidBorder, List.any_eq_true,
        List.mem_flatten]
      constructor
      · rintro (⟨col, hcol, hP⟩ | ⟨row, hrow, col, hcol, hP⟩)
        · exact ⟨col, .inl hcol, by tauto⟩
        · exact ⟨col, .inr ⟨row, hrow, hcol⟩, by tauto⟩
      · rintro ⟨col, hcol | ⟨row, hrow, hcol⟩, hP⟩
        · exact .inl ⟨col, hcol, by tauto⟩
        · exact .inr ⟨row, hrow, col, hcol, by tauto⟩

/-- The C5 failing cell: `BorderTop="dotted"`, the other three border
attributes absent. -/
def cell5 : TableColumn := ⟨"x", none, none, some "dotted", none, none, none⟩

set_option maxRecDepth 4096 in
/-- C5: when the style flag is on, a body cell's ABSENT border attributes are
not treated as `"solid"`-and-suppressed: the grid stores Python `None` for
them and the renderer emits literal `border-*-style: None` declarations.  The
theorem evaluates the full renderer on a one-cell table whose only explicit
attribute is `BorderTop="dotted"`. -/
theorem C5_absent_border_rendered_as_None :
    _check_table_has_non_solid_border none [[cell5]] = true ∧
      render_table ⟨none, none, [[cell5]]⟩ 0 =
        "<table style=\"border-collapse: collapse;\">\n" ++
          "  <tbody>\n" ++
          "    <tr>\n" ++
          "      <td style=\"border-top-style: dotted; border-bottom-style: None; " ++
          "border-left-style: None; border-right-style: None\">x</td>\n" ++
          "    </tr>\n" ++
          "  </tbody>\n" ++
          "</table>\n\n" := by
  constructor
  · decide
  · have hb : build_logical_table_grid [[cell5]] =
        [[.data "x" 1 1 (some "dotted") none none none]] := by
      simp only [build_logical_table_grid, gridGo]
      rw [rowLoop_cons _ _ (by decide), rowLoop_nil (by decide)]
      simp [mkData, cell5]
    simp only [render_table, render_table_lines, renderBodyLines, hb]
    decide

theorem rowspan_attr_ne_colspan_attr (x y : String) :
    "rowspan=\"" ++ x ++ "\"" ≠ "colspan=\"" ++ y ++ "\"" := by
  rw [String.append_assoc, String.append_assoc]
  exact append_ne_of_head_ne _ _ 'r' 'c' (by decide) (by decide) (by decide)

theorem rowspan_attr_ne_style_attr (x y : String) :
    "rowspan=\"" ++ x ++ "\"" ≠ "style=\"" ++ y ++ "\"" := by
  rw [String.append_assoc, String.append_assoc]
  exact append_ne_of_head_ne _ _ 'r' 's' (by decide) (by decide) (by decide)

theorem colspan_attr_ne_style_attr (x y : String) :
    "colspan=\"" ++ x ++ "\"" ≠ "style=\"" ++ y ++ "\"" := by
  rw [String.append_assoc, String.append_assoc]
  exact append_ne_of_head_ne _ _ 'c' 's' (by decide) (by decide) (by decide)

/-- Every attribute string of a body cell is a rowspan attribute (present only
when `1 < rs`), a colspan attribute (present only when `1 < cs`), or a style
attribute. -/
theorem mem_td_attrs (flag : Bool) (rs cs : Int) (bt bb bl br : Option String) (s : String)
    (hs : s ∈ td_attrs flag rs cs bt bb bl br) :
    (1 < rs ∧ s = "rowspan=\"" ++ toString rs ++ "\"") ∨
      (1 < cs ∧ s = "colspan=\"" ++ toString cs ++ "\"") ∨
      (∃ y, s = "style=\"" ++ y ++ "\"") := by
  simp only [td_attrs, List.mem_append] at hs
  rcases hs with (hs | hs) | hs
  · by_cases h1 : 1 < rs
    · rw [if_pos h1] at hs
      simp at hs
      exact .inl ⟨h1, hs⟩
    · rw [if_neg h1] at hs
      simp at hs
  · by_cases h2 : 1 < cs
    · rw [if_pos h2] at hs
      simp at hs
      exact .inr (.inl ⟨h2, hs⟩)
    · rw [if_neg h2] at hs
      simp at hs
  · cases flag with
    | false => simp at hs
    | true =>
        simp only [if_pos] at hs
        split at hs
        · simp at hs
        · simp at hs
          exact .inr (.inr ⟨_, hs⟩)

/-- `renderBodyCell` emits exactly one `<td>` line per `data` cell and nothing
for `occupied` entries. -/
theorem filterMap_renderBodyCell_length (ind : String) (flag : Bool)
    (row : List LogicalCell) :
    (row.filterMap (renderBodyCell ind flag)).length = row.countP isData := by
  induction row with
  | nil => rfl
  | cons cell tl ih =>
      cases cell with
      | occupied => simpa [renderBodyCell, isData] using ih
      | data t rs cs bt bb bl br => simpa [renderBodyCell, isData] using ih

/-- C3: the renderer skips `Covered` (`occupied`) positions entirely — they
produce no output line of any kind, so a row's emitted `<td>` lines are in
bijection with its Origin cells — and the `rowspan` / `colspan` attribute is
in a cell's attribute list exactly when the corresponding span value is
strictly greater than 1. -/
theorem C3_renderer_skips_covered (ind : String) (flag : Bool)
    (rs cs : Int) (bt bb bl br : Option String) :
    renderBodyCell ind flag .occupied = none ∧
      (("rowspan=\"" ++ toString rs ++ "\"") ∈ td_attrs flag rs cs bt bb bl br ↔ 1 < rs) ∧
      (("colspan=\"" ++ toString cs ++ "\"") ∈ td_attrs flag rs cs bt bb bl br ↔ 1 < cs) ∧
      ∀ row : List LogicalCell,
        (row.filterMap (renderBodyCell ind flag)).length = row.countP isData := by
  refine ⟨rfl, ⟨?_, ?_⟩, ⟨?_, ?_⟩, filterMap_renderBodyCell_length ind flag⟩
  · intro hmem
    rcases mem_td_attrs flag rs cs bt bb bl br _ hmem with ⟨h, _⟩ | ⟨_, heq⟩ | ⟨y, heq⟩
    · exact h
    · exact absurd heq (rowspan_attr_ne_colspan_attr _ _)
    · exact absurd heq (rowspan_attr_ne_style_attr _ _)
  · intro h1
    simp [td_attrs, if_pos h1]
  · intro hmem
    rcases mem_td_attrs flag rs cs bt bb bl br _ hmem with ⟨_, heq⟩ | ⟨h, _⟩ | ⟨y, heq⟩
    · exact absurd heq.symm (rowspan_attr_ne_colspan_attr _ _)
    · exact h
    · exact absurd heq (colspan_attr_ne_style_attr _ _)
  · intro h2
    simp [td_attrs, if_pos h2]

/-! ## Grid evaluations on further concrete inputs -/

/-- Two explicit rowspan-2 cells over a one-cell second row. -/
def rowspanPairRows : List (List TableColumn) :=
  [[⟨"A", some 2, none, none, none, none, none⟩, ⟨"B", some 2, none, none, none, none, none⟩],
   [plainCell "C"]]

theorem build_rowspanPair :
    build_logical_table_grid rowspanPairRows =
      [[.data "A" 2 1 none none none none, .data "B" 2 1 none none none none],
       [.occupied, .occupied, .data "C" 1 1 none none none none]] := by
  simp only [build_logical_table_grid, rowspanPairRows, gridGo]
  rw [rowLoop_cons _ _ (by decide), rowLoop_cons _ _ (by decide), rowLoop_nil (by decide)]
  rw [rowLoop_mem _ (by decide), rowLoop_mem _ (by decide),
    rowLoop_cons _ _ (by decide), rowLoop_nil (by decide)]
  simp [mkData, plainCell]

/-- A rowspan reservation and a colspan that tramples it:
`[[A, B(rowspan=2)], [C(colspan=2), D]]`. -/
def overlapRows : List (List TableColumn) :=
  [[plainCell "A", ⟨"B", some 2, none, none, none, none, none⟩],
   [⟨"C", none, some 2, none, none, none, none⟩, plainCell "D"]]

theorem build_overlap :
    build_logical_table_grid overlapRows =
      [[.data "A" 1 1 none none none none, .data "B" 2 1 none none none none],
       [.data "C" 1 2 none none none none, .data "D" 1 1 none none none none]] := by
  simp only [build_logical_table_grid, overlapRows, gridGo]
  rw [rowLoop_cons _ _ (by decide), rowLoop_cons _ _ (by decide), rowLoop_nil (by decide)]
  rw [rowLoop_cons _ _ (by decide), rowLoop_cons _ _ (by decide), rowLoop_nil (by decide)]
  simp [mkData, plainCell]

/-- A remark-style row (first cell with `colspan=2`) above a normal row. -/
def remarkRows : List (List TableColumn) :=
  [[⟨"N", none, some 2, none, none, none, none⟩],
   [plainCell "a", plainCell "b"]]

theorem build_remark :
    build_logical_table_grid remarkRows =
      [[.data "N" 1 2 none none none none],
       [.data "a" 1 1 none none none none, .data "b" 1 1 none none none none]] := by
  simp only [build_logical_table_grid, remarkRows, gridGo]
  rw [rowLoop_cons _ _ (by decide), rowLoop_nil (by decide)]
  rw [rowLoop_cons _ _ (by decide), rowLoop_cons _ _ (by decide), rowLoop_nil (by decide)]
  simp [mkData, plainCell]

/-- C8, counterexample: a row whose first cell declares `col_span > 1` is NOT
excluded from the resolved grid — `build_logical_table_grid` has no remark
handling and keeps it as grid row 0. -/
theorem C8_remark_row_kept_in_grid :
    build_logical_table_grid remarkRows =
      [[.data "N" 1 2 none none none none],
       [.data "a" 1 1 none none none none, .data "b" 1 1 none none none none]] :=
  build_remark

set_option maxRecDepth 8192 in
/-- C8, amended: a row whose first cell declares `col_span > 1` is kept in the
grid and rendered as an ordinary `<tr>` row (its cell emitted with a
`colspan` attribute); no remark list exists and nothing is emitted after the
table. -/
theorem C8_remark_row_rendered_as_row :
    render_table ⟨none, none, remarkRows⟩ 0 =
      "<table style=\"border-collapse: collapse;\">\n" ++
        "  <tbody>\n" ++
        "    <tr>\n" ++
        "      <td colspan=\"2\">N</td>\n" ++
        "    </tr>\n" ++
        "    <tr>\n" ++
        "      <td>a</td>\n" ++
        "      <td>b</td>\n" ++
        "    </tr>\n" ++
        "  </tbody>\n" ++
        "</table>\n\n" := by
  simp only [render_table, render_table_lines, renderBodyLines, build_remark]
  decide

/-- C10, counterexample: the total work (number of grid entries produced) is
NOT bounded by `rows × max_columns`: reservations push later cells to the
right, so rows can grow wider than `max_columns`. -/
theorem C10_work_bound_counterexample :
    totalEntries (build_logical_table_grid rowspanPairRows) = 5 ∧
      rowspanPairRows.length * (spec_max_columns rowspanPairRows).toNat = 4 ∧
      ¬ totalEntries (build_logical_table_grid rowspanPairRows) ≤
          rowspanPairRows.length * (spec_max_columns rowspanPairRows).toNat := by
  rw [build_rowspanPair]
  refine ⟨by decide, by decide, ?_⟩
  decide

theorem gridGo_length (r : Nat) (rows : List (List TableColumn)) (occ : Finset (Nat × Int)) :
    (gridGo r rows occ).length = rows.length := by
  induction rows generalizing r occ with
  | nil => rfl
  | cons row tl ih => simp [gridGo, ih]

/-- C10, amended: grid resolution is a total function — the recursion of
`rowLoop` is well-founded for every input, including degenerate or negative
span attributes (see its termination measure) — and it produces exactly one
logical row per declared row; the `rows × max_columns` work bound of the
claim does not hold in general. -/
theorem C10_grid_resolution_total (rows : List (List TableColumn)) :
    (build_logical_table_grid rows).length = rows.length :=
  gridGo_length 0 rows ∅

/-- C2, counterexample: the coverage invariant fails.  On `overlapRows` the
rectangle position `(0, 2)` (with `max_columns = 3`) is claimed by no origin
footprint, and the footprints of `B` (rowspan 2 from `(0,1)`) and `C`
(colspan 2 from `(1,0)`) both claim position `(1,1)`. -/
theorem C2_coverage_counterexample : ¬ CoverageExact overlapRows := by
  intro hC
  simp only [CoverageExact, build_overlap] at hC
  have h1 := hC.1 0 (by decide) 2 (by decide)
  revert h1
  decide

/-! ## Line-shape lemmas for the renderer -/

theorem countP_flatMap {α β : Type} (p : β → Bool) (f : α → List β) (l : List α) :
    ((l.flatMap f).countP p) = (l.map (fun x => (f x).countP p)).sum := by
  induction l with
  | nil => rfl
  | cons x tl ih => simp [List.flatMap_cons, List.countP_append, ih]

theorem renderBodyCell_length_lb (ind : String) (flag : Bool) (cell : LogicalCell)
    (s : String) (h : renderBodyCell ind flag cell = some s) :
    ind.length + 15 ≤ s.length := by
  cases cell with
  | occupied => simp [renderBodyCell] at h
  | data t rs cs bt bb bl br =>
      simp only [renderBodyCell, Option.some.injEq] at h
      subst h
      have h9 : ("      <td").length = 9 := by decide
      have h1 : (">").length = 1 := by decide
      have h5 : ("</td>").length = 5 := by decide
      simp only [String.length_append]
      omega

theorem sum_map_one {α : Type} (l : List α) :
    (l.map (fun _ => (1 : Nat))).sum = l.length := by
  induction l with
  | nil => rfl
  | cons x tl ih =>
      simp [ih]
      omega

theorem tableAttrs_length_lb (t : Table) : 35 ≤ (tableAttrs t).length := by
  rw [tableAttrs, String.length_append]
  have h35 : (" style=\"border-collapse: collapse;\"").length = 35 := by decide
  omega

theorem open_line_length (ind : String) (t : Table) :
    ind.length + 42 ≤ (ind ++ "<table" ++ tableAttrs t ++ ">").length := by
  simp only [String.length_append]
  have := tableAttrs_length_lb t
  have h6 : ("<table").length = 6 := by decide
  have h1 : (">").length = 1 := by decide
  omega

/-- C7, counterexample: with no explicit header row and body rows
`[[a,b],[c,d]]`, the renderer does NOT promote `[a,b]` to a header row: it
emits no `<thead>` at all and renders both rows, the first included, as
`<tbody>` rows. -/
theorem C7_first_row_not_promoted :
    render_table_lines ⟨none, none, simple2x2Rows⟩ 0 =
        ["<table style=\"border-collapse: collapse;\">",
         "  <tbody>",
         "    <tr>", "      <td>a</td>", "      <td>b</td>", "    </tr>",
         "    <tr>", "      <td>c</td>", "      <td>d</td>", "    </tr>",
         "  </tbody>",
         "</table>"] ∧
      (render_table_lines ⟨none, none, simple2x2Rows⟩ 0).countP
        (fun l => l = "  <thead>") = 0 := by
  have hb : build_logical_table_grid simple2x2Rows =
      [[.data "a" 1 1 none none none none, .data "b" 1 1 none none none none],
       [.data "c" 1 1 none none none none, .data "d" 1 1 none none none none]] := by
    simp only [build_logical_table_grid, simple2x2Rows, gridGo]
    rw [rowLoop_cons _ _ (by decide), rowLoop_cons _ _ (by decide), rowLoop_nil (by decide)]
    rw [rowLoop_cons _ _ (by decide), rowLoop_cons _ _ (by decide), rowLoop_nil (by decide)]
    simp [mkData, plainCell]
  constructor
  · simp only [render_table_lines, renderBodyLines, hb]
    decide
  · simp only [render_table_lines, renderBodyLines, hb]
    decide

/-- C7, amended: no header promotion occurs.  For every table without an
explicit header row, the rendered output contains no `<thead>` line, and
every resolved body row — the first included — is rendered as a `<tbody>`
row: the number of `<tr>`-opening lines equals the number of resolved grid
rows. -/
theorem C7_no_header_promotion (t : Table) (ind : Nat) (h : t.header = none) :
    (render_table_lines t ind).countP
        (fun l => l = indentStr ind ++ "  <thead>") = 0 ∧
      (render_table_lines t ind).countP
        (fun l => l = indentStr ind ++ "    <tr>") =
        (build_logical_table_grid t.bodyRows).length := by
  have hthead9 : (("  <thead>") : String).length = 9 := by decide
  have htr8 : (("    <tr>") : String).length = 8 := by decide
  constructor
  · simp only [render_table_lines, h, renderHeaderLines, List.nil_append]
    rw [List.countP_append, List.countP_append]
    have hopen : List.countP (fun l => decide (l = indentStr ind ++ "  <thead>"))
        [indentStr ind ++ "<table" ++ tableAttrs t ++ ">"] = 0 := by
      have hne : ¬ (indentStr ind ++ "<table" ++ tableAttrs t ++ ">" =
          indentStr ind ++ "  <thead>") := by
        apply ne_of_length_ne
        have := open_line_length (indentStr ind) t
        simp only [String.length_append] at this ⊢
        omega
      simp [hne]
    have hclose : List.countP (fun l => decide (l = indentStr ind ++ "  <thead>"))
        [indentStr ind ++ "</table>"] = 0 := by
      have hne : ¬ ((indentStr ind ++ "</table>") = indentStr ind ++ "  <thead>") :=
        append_left_cancel_ne (by decide)
      simp [hne]
    rw [hopen, hclose]
    have hbody : List.countP (fun l => decide (l = indentStr ind ++ "  <thead>"))
        (renderBodyLines (indentStr ind)
          (_check_table_has_non_solid_border none t.bodyRows) t.bodyRows) = 0 := by
      rw [renderBodyLines]
      split
      · simp
      · rw [List.cons_append, List.countP_cons, List.countP_append, countP_flatMap]
        have htbodyO : ¬ ((indentStr ind ++ "  <tbody>") = indentStr ind ++ "  <thead>") :=
          append_left_cancel_ne (by decide)
        have htbodyC : List.countP (fun l => decide (l = indentStr ind ++ "  <thead>"))
            [indentStr ind ++ "  </tbody>"] = 0 := by
          have hne : ¬ ((indentStr ind ++ "  </tbody>") = indentStr ind ++ "  <thead>") :=
            append_left_cancel_ne (by decide)
          simp [hne]
        have hrow : ∀ row : List LogicalCell,
            (renderGridRowLines (indentStr ind)
                (_check_table_has_non_solid_border none t.bodyRows) row).countP
              (fun l => l = indentStr ind ++ "  <thead>") = 0 := by
          intro row
          rw [renderGridRowLines, List.cons_append, List.countP_cons, List.countP_append]
          have htrO : ¬ ((indentStr ind ++ "    <tr>") = indentStr ind ++ "  <thead>") :=
            append_left_cancel_ne (by decide)
          have htrC : List.countP (fun l => decide (l = indentStr ind ++ "  <thead>"))
              [indentStr ind ++ "    </tr>"] = 0 := by
            have hne : ¬ ((indentStr ind ++ "    </tr>") = indentStr ind ++ "  <thead>") :=
              append_left_cancel_ne (by decide)
            simp [hne]
          have htd : (row.filterMap (renderBodyCell (indentStr ind)
              (_check_table_has_non_solid_border none t.bodyRows))).countP
              (fun l => l = indentStr ind ++ "  <thead>") = 0 := by
            rw [List.countP_eq_zero]
            intro s hs
            rcases List.mem_filterMap.mp hs with ⟨cell, _, hc⟩
            have hlb := renderBodyCell_length_lb _ _ _ _ hc
            simp only [decide_eq_true_eq]
            apply ne_of_length_ne
            simp only [String.length_append]
            omega
          rw [htrC, htd]
          simp [htrO]
        simp only [hrow, htbodyC, htbodyO]
        simp
    rw [hbody]
  · simp only [render_table_lines, h, renderHeaderLines, List.nil_append]
    rw [List.countP_append, List.countP_append]
    have hopen : List.countP (fun l => decide (l = indentStr ind ++ "    <tr>"))
        [indentStr ind ++ "<table" ++ tableAttrs t ++ ">"] = 0 := by
      have hne : ¬ (indentStr ind ++ "<table" ++ tableAttrs t ++ ">" =
          indentStr ind ++ "    <tr>") := by
        apply ne_of_length_ne
        have := open_line_length (indentStr ind) t
        simp only [String.length_append] at this ⊢
        omega
      simp [hne]
    have hclose : List.countP (fun l => decide (l = indentStr ind ++ "    <tr>"))
        [indentStr ind ++ "</table>"] = 0 := by
      have hne : ¬ ((indentStr ind ++ "</table>") = indentStr ind ++ "    <tr>") :=
        append_left_cancel_ne (by decide)
      simp [hne]
    rw [hopen, hclose]
    have hbody : List.countP (fun l => decide (l = indentStr ind ++ "    <tr>"))
        (renderBodyLines (indentStr ind)
          (_check_table_has_non_solid_border none t.bodyRows) t.bodyRows) =
        (build_logical_table_grid t.bodyRows).length := by
      rw [renderBodyLines]
      split
      · rename_i hempty
        rw [hempty]
        simp [build_logical_table_grid, gridGo]
      · rw [List.cons_append, List.countP_cons, List.countP_append, countP_flatMap]
        have htbodyO : ¬ ((indentStr ind ++ "  <tbody>") = indentStr ind ++ "    <tr>") :=
          append_left_cancel_ne (by decide)
        have htbodyC : List.countP (fun l => decide (l = indentStr ind ++ "    <tr>"))
            [indentStr ind ++ "  </tbody>"] = 0 := by
          have hne : ¬ ((indentStr ind ++ "  </tbody>") = indentStr ind ++ "    <tr>") :=
            append_left_cancel_ne (by decide)
          simp [hne]
        have hrow : ∀ row : List LogicalCell,
            (renderGridRowLines (indentStr ind)
                (_check_table_has_non_solid_border none t.bodyRows) row).countP
              (fun l => l = indentStr ind ++ "    <tr>") = 1 := by
          intro row
          rw [renderGridRowLines, List.cons_append, List.countP_cons, List.countP_append]
          have htrC : List.countP (fun l => decide (l = indentStr ind ++ "    <tr>"))
              [indentStr ind ++ "    </tr>"] = 0 := by
            have hne : ¬ ((indentStr ind ++ "    </tr>") = indentStr ind ++ "    <tr>") :=
              append_left_cancel_ne (by decide)
            simp [hne]
          have htd : (row.filterMap (renderBodyCell (indentStr ind)
              (_check_table_has_non_solid_border none t.bodyRows))).countP
              (fun l => l = indentStr ind ++ "    <tr>") = 0 := by
            rw [List.countP_eq_zero]
            intro s hs
            rcases List.mem_filterMap.mp hs with ⟨cell, _, hc⟩
            have hlb := renderBodyCell_length_lb _ _ _ _ hc
            simp only [decide_eq_true_eq]
            apply ne_of_length_ne
            simp only [String.length_append]
            omega
          rw [htrC, htd]
          simp
        simp only [hrow, htbodyC, htbodyO, sum_map_one]
        simp
    rw [hbody]
    omega

/-- Witness for C7's amended theorem at the concrete 2 × 2 no-header table. -/
theorem C7_no_header_promotion_witness :
    (⟨none, none, simple2x2Rows⟩ : Table).header = none ∧
      ((render_table_lines ⟨none, none, simple2x2Rows⟩ 0).countP
          (fun l => l = indentStr 0 ++ "  <thead>") = 0 ∧
        (render_table_lines ⟨none, none, simple2x2Rows⟩ 0).countP
          (fun l => l = indentStr 0 ++ "    <tr>") =
          (build_logical_table_grid simple2x2Rows).length) :=
  ⟨rfl, C7_no_header_promotion ⟨none, none, simple2x2Rows⟩ 0 rfl⟩

/-! ## The span-free uniform case of the coverage invariant -/

theorem reservations_one (r : Nat) (c : Int) : reservations r c 1 1 = ∅ := by
  ext q
  simp [reservations]

theorem rowLoop_all_ones (r : Nat) (cols : List TableColumn)
    (h : ∀ cell ∈ cols, cell.rowspanAttr.getD 1 = 1 ∧ cell.colspanAttr.getD 1 = 1) :
    ∀ c : Int, rowLoop r cols c ∅ = (cols.map mkData, ∅) := by
  induction cols with
  | nil => intro c; exact rowLoop_nil (by simp)
  | cons col tl ih =>
      intro c
      rw [rowLoop_cons _ _ (by simp)]
      have hc := h col (List.mem_cons_self _ _)
      rw [hc.1, hc.2, reservations_one, Finset.union_empty]
      rw [ih (fun cell hcell => h cell (List.mem_cons_of_mem _ hcell)) (c + 1)]
      simp

theorem gridGo_all_ones (rows : List (List TableColumn))
    (h : ∀ row ∈ rows, ∀ cell ∈ row,
      cell.rowspanAttr.getD 1 = 1 ∧ cell.colspanAttr.getD 1 = 1) :
    ∀ r : Nat, gridGo r rows ∅ = rows.map (List.map mkData) := by
  induction rows with
  | nil => intro r; rfl
  | cons row tl ih =>
      intro r
      simp only [gridGo]
      rw [rowLoop_all_ones r row (h row (List.mem_cons_self _ _)) 0]
      simp only [List.map_cons]
      rw [ih (fun row' hr => h row' (List.mem_cons_of_mem _ hr)) (r + 1)]

/-- With every span equal to 1, the grid is just the rows, cell by cell. -/
theorem build_all_ones (rows : List (List TableColumn))
    (h : ∀ row ∈ rows, ∀ cell ∈ row,
      cell.rowspanAttr.getD 1 = 1 ∧ cell.colspanAttr.getD 1 = 1) :
    build_logical_table_grid rows = rows.map (List.map mkData) :=
  gridGo_all_ones rows h 0

theorem footprint_one (r : Nat) (c : Int) :
    footprint ⟨r, c, 1, 1⟩ = {(r, c)} := by
  ext q
  simp only [footprint, Finset.mem_image, Finset.mem_product, Finset.mem_range,
    Finset.mem_singleton]
  constructor
  · rintro ⟨a, ⟨ha, hb⟩, heq⟩
    have ha0 : a.1 = 0 := by omega
    have hb0 : a.2 = 0 := by omega
    rw [← heq, ha0, hb0]
    simp
  · intro hq
    subst hq
    exact ⟨(0, 0), ⟨by omega, by omega⟩, by simp⟩

theorem rowPositions_origins_all_ones (r : Nat) (cols : List TableColumn)
    (h : ∀ cell ∈ cols, cell.rowspanAttr.getD 1 = 1 ∧ cell.colspanAttr.getD 1 = 1) :
    ∀ c : Int,
      (rowPositions c (cols.map mkData)).filterMap (fun p =>
          match p.2 with
          | .data _ rs cs _ _ _ _ => some (⟨r, p.1, rs, cs⟩ : OriginInfo)
          | .occupied => none) =
        (List.range cols.length).map
          (fun (j : Nat) => (⟨r, c + (j : Int), 1, 1⟩ : OriginInfo)) := by
  induction cols with
  | nil => intro c; rfl
  | cons col tl ih =>
      intro c
      have hc := h col (List.mem_cons_self _ _)
      simp only [List.map_cons, rowPositions, List.filterMap_cons, mkData, cellWidth,
        hc.1, hc.2]
      rw [ih (fun cell hcell => h cell (List.mem_cons_of_mem _ hcell)) (c + 1)]
      rw [List.length_cons, List.range_succ_eq_map, List.map_cons, List.map_map]
      congr 1
      · simp
      · apply List.map_congr_left
        intro j hj
        simp only [Function.comp]
        congr 1
        push_cast
        ring

theorem originsOfRow_all_ones (r : Nat) (cols : List TableColumn)
    (h : ∀ cell ∈ cols, cell.rowspanAttr.getD 1 = 1 ∧ cell.colspanAttr.getD 1 = 1) :
    originsOfRow r (cols.map mkData) =
      (List.range cols.length).map
        (fun (j : Nat) => (⟨r, (j : Int), 1, 1⟩ : OriginInfo)) := by
  rw [originsOfRow, rowPositions_origins_all_ones r cols h 0]
  apply List.map_congr_left
  intro j hj
  simp

theorem coveredOfRow_all_data (r : Nat) (cols : List TableColumn) :
    ∀ c : Int,
      (rowPositions c (cols.map mkData)).filterMap (fun p =>
          match p.2 with
          | .data _ _ _ _ _ _ _ => none
          | .occupied => some (r, p.1)) = [] := by
  induction cols with
  | nil => intro c; rfl
  | cons col tl ih =>
      intro c
      simp only [List.map_cons, rowPositions, List.filterMap_cons, mkData]
      exact ih (c + cellWidth (mkData col))

theorem gridOrigins_all_ones (rows : List (List TableColumn))
    (h : ∀ row ∈ rows, ∀ cell ∈ row,
      cell.rowspanAttr.getD 1 = 1 ∧ cell.colspanAttr.getD 1 = 1) :
    gridOrigins (rows.map (List.map mkData)) =
      (rows.enum.flatMap (fun q =>
        (List.range q.2.length).map
          (fun (j : Nat) => (⟨q.1, (j : Int), 1, 1⟩ : OriginInfo)))) := by
  rw [gridOrigins, List.enum_map, List.map_map, List.flatMap]
  congr 1
  apply List.map_congr_left
  intro q hq
  have hq2 : q.2 ∈ rows := by
    rcases q with ⟨i, row⟩
    obtain ⟨-, -, h3⟩ := List.mem_enumFrom hq
    rw [h3]
    apply List.getElem_mem
  simp only [Function.comp, Prod.map, id]
  exact originsOfRow_all_ones q.1 q.2 (h q.2 hq2)

theorem gridCovered_all_ones (rows : List (List TableColumn)) :
    gridCovered (rows.map (List.map mkData)) = [] := by
  rw [gridCovered, List.enum_map, List.map_map, List.flatten_eq_nil_iff]
  intro l hl
  rcases List.mem_map.mp hl with ⟨q, hq, rfl⟩
  simp only [Function.comp, Prod.map, id]
  rw [coveredOfRow]
  exact coveredOfRow_all_data q.1 q.2 0

theorem countP_range_eq_ite (n jj : Nat) :
    (List.range n).countP (fun j => decide (jj = j)) = if jj < n then 1 else 0 := by
  induction n with
  | zero => simp
  | succ n ih =>
      rw [List.range_succ, List.countP_append, ih, List.countP_cons, List.countP_nil]
      by_cases h : jj = n
      · subst h
        simp
      · rw [decide_eq_false h]
        simp only [Bool.false_eq_true, if_false]
        split_ifs <;> omega

theorem countP_origins_row (i n r jj : Nat) (hj : jj < n) :
    ((List.range n).map
        (fun (j : Nat) => (⟨i, (j : Int), 1, 1⟩ : OriginInfo))).countP
      (fun o => decide ((r, (jj : Int)) ∈ footprint o)) = if i = r then 1 else 0 := by
  rw [List.countP_map]
  by_cases hir : i = r
  · subst hir
    have hfun : ((fun o => decide ((i, (jj : Int)) ∈ footprint o)) ∘
        (fun (j : Nat) => (⟨i, (j : Int), 1, 1⟩ : OriginInfo))) =
        fun j => decide (jj = j) := by
      funext j
      simp [footprint_one, Prod.ext_iff]
    rw [hfun, countP_range_eq_ite]
    simp [hj]
  · rw [if_neg hir]
    rw [List.countP_eq_zero]
    intro j hjmem
    simp [footprint_one, Prod.ext_iff]
    intro hr
    exact absurd hr.symm hir

theorem countP_origins_enumFrom (n r jj : Nat) (hj : jj < n) :
    ∀ (rows : List (List TableColumn)), (∀ row ∈ rows, row.length = n) →
      ∀ k : Nat,
        ((rows.enumFrom k).flatMap (fun q =>
            (List.range q.2.length).map
              (fun (j : Nat) => (⟨q.1, (j : Int), 1, 1⟩ : OriginInfo)))).countP
          (fun o => decide ((r, (jj : Int)) ∈ footprint o)) =
        if k ≤ r ∧ r < k + rows.length then 1 else 0 := by
  intro rows
  induction rows with
  | nil =>
      intro _ k
      simp only [List.enumFrom_nil, List.flatMap_nil, List.countP_nil, List.length_nil]
      split_ifs with hif
      · omega
      · rfl
  | cons row tl ih =>
      intro hlen k
      rw [List.enumFrom_cons, List.flatMap_cons, List.countP_append]
      rw [hlen row (List.mem_cons_self _ _)]
      rw [countP_origins_row k n r jj hj]
      rw [ih (fun row' hr => hlen row' (List.mem_cons_of_mem _ hr)) (k + 1)]
      simp only [List.length_cons]
      split_ifs <;> omega

theorem sum_map_one_int {α : Type} (l : List α) :
    (l.map (fun _ => (1 : Int))).sum = l.length := by
  induction l with
  | nil => rfl
  | cons x tl ih =>
      simp [ih]
      omega

theorem spec_max_columns_uniform (rows : List (List TableColumn)) (n : Nat)
    (hlen : ∀ row ∈ rows, row.length = n)
    (hspan : ∀ row ∈ rows, ∀ cell ∈ row,
      cell.rowspanAttr.getD 1 = 1 ∧ cell.colspanAttr.getD 1 = 1)
    (hne : rows ≠ []) :
    spec_max_columns rows = (n : Int) := by
  rw [spec_max_columns]
  have hmap : rows.map
      (fun row => (row.map (fun cell => cell.colspanAttr.getD 1)).sum) =
      rows.map (fun _ => (n : Int)) := by
    apply List.map_congr_left
    intro row hrow
    have h1 : row.map (fun cell => cell.colspanAttr.getD 1) =
        row.map (fun _ => (1 : Int)) := by
      apply List.map_congr_left
      intro cell hcell
      exact (hspan row hrow cell hcell).2
    rw [h1, sum_map_one_int, hlen row hrow]
  rw [hmap]
  cases rows with
  | nil => exact absurd rfl hne
  | cons row tl =>
      clear hne hmap hlen hspan
      induction tl with
      | nil =>
          simp only [List.map_cons, List.map_nil, List.foldr_cons, List.foldr_nil]
          omega
      | cons row' tl' ih =>
          simp only [List.map_cons, List.foldr_cons] at ih ⊢
          rw [ih]
          omega

theorem pairwise_origins_within (i n : Nat) :
    List.Pairwise (fun o₁ o₂ : OriginInfo => footprint o₁ ∩ footprint o₂ = ∅)
      ((List.range n).map (fun (j : Nat) => (⟨i, (j : Int), 1, 1⟩ : OriginInfo))) := by
  apply List.Pairwise.map _ ?_ (List.pairwise_lt_range n)
  intro a b hab
  rw [footprint_one, footprint_one]
  apply Finset.singleton_inter_of_not_mem
  simp only [Finset.mem_singleton, Prod.ext_iff]
  intro hcon
  omega

theorem pairwise_origins_across (rows : List (List TableColumn)) :
    List.Pairwise
      (fun l₁ l₂ => ∀ x ∈ l₁, ∀ y ∈ l₂, footprint x ∩ footprint y = ∅)
      (rows.enum.map (fun q => (List.range q.2.length).map
        (fun (j : Nat) => (⟨q.1, (j : Int), 1, 1⟩ : OriginInfo)))) := by
  rw [List.pairwise_map]
  have henum : List.Pairwise
      (fun q₁ q₂ : Nat × List TableColumn => q₁.1 < q₂.1) rows.enum := by
    have h1 := List.pairwise_lt_range' 0 rows.length
    rw [← List.enumFrom_map_fst 0 rows, List.pairwise_map] at h1
    exact h1
  apply henum.imp
  intro q₁ q₂ hlt x hx y hy
  rcases List.mem_map.mp hx with ⟨j₁, hj₁, rfl⟩
  rcases List.mem_map.mp hy with ⟨j₂, hj₂, rfl⟩
  rw [footprint_one, footprint_one]
  apply Finset.singleton_inter_of_not_mem
  simp only [Finset.mem_singleton, Prod.ext_iff]
  intro hcon
  omega

/-- C2, amended: the coverage invariant holds for span-free tables of uniform
width — every cell declaring `row_span = col_span = 1` and every row the same
number of cells.  (In general it fails: short rows leave rectangle positions
unclaimed and a colspan can claim positions already reserved by a rowspan, as
the counterexample shows.) -/
theorem C2_coverage_exact_uniform (rows : List (List TableColumn)) (n : Nat)
    (hlen : ∀ row ∈ rows, row.length = n)
    (hspan : ∀ row ∈ rows, ∀ cell ∈ row,
      cell.rowspanAttr.getD 1 = 1 ∧ cell.colspanAttr.getD 1 = 1) :
    CoverageExact rows := by
  have hbuild := build_all_ones rows hspan
  have horig := gridOrigins_all_ones rows hspan
  have hcov := gridCovered_all_ones rows
  simp only [CoverageExact]
  refine ⟨?_, ?_, ?_⟩
  · intro r hr jj hjj
    rw [hbuild, horig]
    have hne : rows ≠ [] := by
      intro he
      subst he
      simp at hr
    have hm := spec_max_columns_uniform rows n hlen hspan hne
    rw [hm, Int.toNat_natCast] at hjj
    rw [show rows.enum = rows.enumFrom 0 from rfl]
    rw [countP_origins_enumFrom n r jj hjj rows hlen 0]
    rw [if_pos (by omega)]
  · rw [hbuild, horig]
    rw [List.flatMap]
    rw [List.pairwise_flatten]
    constructor
    · intro l hl
      rcases List.mem_map.mp hl with ⟨q, hq, rfl⟩
      exact pairwise_origins_within q.1 q.2.length
    · exact pairwise_origins_across rows
  · intro p hp
    rw [hbuild, hcov] at hp
    simp at hp

/-- Witness for C2's amended theorem at the 2 × 2 attribute-free table. -/
theorem C2_coverage_exact_uniform_witness :
    (∀ row ∈ simple2x2Rows, row.length = 2) ∧
      (∀ row ∈ simple2x2Rows, ∀ cell ∈ row,
        cell.rowspanAttr.getD 1 = 1 ∧ cell.colspanAttr.getD 1 = 1) ∧
      CoverageExact simple2x2Rows :=
  ⟨by decide, by decide, C2_coverage_exact_uniform simple2x2Rows 2 (by decide) (by decide)⟩

end XmlToMd
